import Mathlib

/-!
# audio-server (index.js): relay and windowed archival

A shallow embedding of the handlers of `index.js`.

* A WebSocket object is represented by its identity (`Conn`); its `readyState`
  is read through a function `Conn → Nat` that is fixed during one synchronous
  handler run.
* The two module-level variables `connectedClients` and `audioBuffer` form the
  `ServerState`.
* Everything a handler does to the outside world (console, sockets, database,
  file system, child process, S3) is recorded, in program order, as a list of
  `Effect`s.  The entries `callProcessAndSaveAudio` and `callUploadFileToS3`
  record the entry of the two named functions together with their arguments.
* The outcomes of the external calls of one archival cycle are the fields of
  `CycleEnv`.  `fs.mkdirSync`, `fs.writeFileSync` and `fs.unlinkSync` are taken
  to complete normally.
* `processAndSaveAudio` is asynchronous: what follows its `await`, and the
  callbacks of `exec` and `s3.upload`, run later on the event loop.  None of
  that code reads or writes `connectedClients` or the variable `audioBuffer`,
  so the trace of a cycle is listed as one block at the timer event that starts
  it.  An exception or rejected promise that nothing in `index.js` catches ends
  the cycle and is recorded as `uncaught`.
* `step` and `run` give what the handlers do while the process lives.  The
  lifetime of the process is added by `hostStep` and `hostRun`: Node.js (15 and
  later, default settings) raises an unhandled rejection as an uncaught
  exception, and an uncaught exception ends the process, after which no event
  is handled.
-/

namespace AudioServer

/-- Identity of one WebSocket object. -/
abbrev Conn := Nat

/-- Payload of one message: the received bytes. -/
abbrev Chunk := List Nat

/-- Value of `ws.CONNECTING`. -/
def CONNECTING : Nat := 0

/-- Value of `ws.OPEN`. -/
def OPEN : Nat := 1

/-- Value of `ws.CLOSING`. -/
def CLOSING : Nat := 2

/-- Value of `ws.CLOSED`. -/
def CLOSED : Nat := 3

/-- Observable actions of the program, in the order the code performs them. -/
inductive Effect where
  | log (msg : String)
  | send (ws : Conn) (data : Chunk)
  | dbConnect
  | dbExecute (sql : String)
  | dbEnd
  | mkdir (dir : String)
  | writeFile (file : String) (content : List Nat)
  | exec (command : String)
  | readFile (file : String)
  | s3Upload (bucket key : String) (body : List Nat) (contentType : String)
  | unlink (file : String)
  | callProcessAndSaveAudio (audioBuffer : List Chunk)
  | callUploadFileToS3 (filePath missionId : String)
  | uncaught (error : String)
  deriving DecidableEq, Repr

/-- The module-level mutable variables `connectedClients` and `audioBuffer`. -/
structure ServerState where
  connectedClients : List Conn
  audioBuffer : List Chunk
  deriving DecidableEq, Repr

/-- State at program start: `connectedClients = []`, `audioBuffer = []`. -/
def ServerState.initial : ServerState :=
  { connectedClients := [], audioBuffer := [] }

/-- Outcomes of the calls made by `getLatestMissionId`:
`connectOk` is false when `mysql.createConnection` rejects, `rows` is `none`
when `connection.execute` rejects and otherwise the `mission_id` column of the
returned rows, `endOk` is false when `connection.end` rejects. -/
structure DbEnv where
  connectOk : Bool
  rows : Option (List String)
  endOk : Bool

/-- Outcomes of the external calls of one archival cycle. -/
structure CycleEnv where
  dirname : String
  db : DbEnv
  dirExists : Bool
  execError : Option String
  fileContent : Option (List Nat)
  formattedDate : String
  uploadErr : Option String

/-- The loop of `connectedClients.forEach((ws, i) => ...)` in the message
handler.  `remaining` is the number of indices still to visit (the length is
read once, before the first iteration), `i` the current index.  An index that
is no longer present in the array is passed over; a present element that is
open gets `ws.send(data)`, any other is removed with `splice(i, 1)`. -/
def forEachLoop (readyState : Conn → Nat) (data : Chunk) :
    Nat → Nat → List Conn → List Effect → List Conn × List Effect
  | 0, _, clients, out => (clients, out)
  | remaining + 1, i, clients, out =>
    match clients.get? i with
    | none => forEachLoop readyState data remaining (i + 1) clients out
    | some ws =>
      if readyState ws = OPEN then
        forEachLoop readyState data remaining (i + 1) clients (out ++ [Effect.send ws data])
      else
        forEachLoop readyState data remaining (i + 1) (clients.eraseIdx i) out

/-- The broadcast of the message handler: `forEach` over `connectedClients`
from index 0, for as many indices as the array has entries at the start. -/
def broadcast (readyState : Conn → Nat) (clients : List Conn) (data : Chunk) :
    List Conn × List Effect :=
  forEachLoop readyState data clients.length 0 clients []

/-- Handler `wsServer.on("connection")`: logs and pushes the new socket. -/
def onConnection (s : ServerState) (ws : Conn) : ServerState × List Effect :=
  ({ s with connectedClients := s.connectedClients ++ [ws] }, [Effect.log "Connected"])

/-- Handler `ws.on("message")`: pushes the chunk on `audioBuffer`, then
broadcasts it. -/
def onMessage (readyState : Conn → Nat) (s : ServerState) (data : Chunk) :
    ServerState × List Effect :=
  let r := broadcast readyState s.connectedClients data
  ({ connectedClients := r.1, audioBuffer := s.audioBuffer ++ [data] }, r.2)

/-- Handler `ws.on("close")`: logs, nothing else. -/
def onClose (s : ServerState) (_ws : Conn) : ServerState × List Effect :=
  (s, [Effect.log "Connection closed"])

/-- Function `getLatestMissionId`: connect, run the query, take
`rows[0].mission_id`; any failure is logged and rethrown; `connection.end()`
runs in `finally` whenever the connection was created. -/
def getLatestMissionId (db : DbEnv) : Except String String × List Effect :=
  let sql := "SELECT mission_id FROM missions ORDER BY start_date DESC LIMIT 1"
  if !db.connectOk then
    (Except.error "createConnection failed",
      [Effect.dbConnect, Effect.log "Failed to retrieve mission:"])
  else
    let tried : Except String String × List Effect :=
      match db.rows with
      | none =>
        (Except.error "execute failed",
          [Effect.dbConnect, Effect.dbExecute sql, Effect.log "Failed to retrieve mission:"])
      | some [] =>
        (Except.error "TypeError: rows[0] is undefined",
          [Effect.dbConnect, Effect.dbExecute sql, Effect.log "Failed to retrieve mission:"])
      | some (missionId :: _) =>
        (Except.ok missionId, [Effect.dbConnect, Effect.dbExecute sql])
    if db.endOk then (tried.1, tried.2 ++ [Effect.dbEnd])
    else (Except.error "end failed", tried.2 ++ [Effect.dbEnd])

/-- The storage key of `uploadFileToS3`: the template literal with
missionId, "/audio_", formattedDate and ".mp3". -/
def s3Key (missionId formattedDate : String) : String :=
  missionId ++ "/audio_" ++ formattedDate ++ ".mp3"

/-- Path of the raw temporary file, `path.join(__dirname, 'tempAudio.raw')`. -/
def tempFilePath (dirname : String) : String := dirname ++ "/tempAudio.raw"

/-- Path of the encoded file, `path.join(__dirname, 'output.mp3')`. -/
def outputFilePath (dirname : String) : String := dirname ++ "/output.mp3"

/-- Function `uploadFileToS3`: read the file, build the key, upload; the upload
callback logs an error, or logs success and unlinks the two local files. -/
def uploadFileToS3 (env : CycleEnv) (filePath missionId : String) : List Effect :=
  let bucketName := "dronesense-audio-bucket"
  match env.fileContent with
  | none =>
    [Effect.callUploadFileToS3 filePath missionId, Effect.readFile filePath,
      Effect.uncaught "readFileSync failed"]
  | some fileContent =>
    let key := s3Key missionId env.formattedDate
    [Effect.callUploadFileToS3 filePath missionId, Effect.readFile filePath,
      Effect.s3Upload bucketName key fileContent "audio/mp3"] ++
    match env.uploadErr with
    | some _ => [Effect.log "Error uploading data: "]
    | none =>
      [Effect.log ("Successfully uploaded data to " ++ bucketName ++ "/" ++ key),
        Effect.unlink filePath, Effect.unlink (tempFilePath env.dirname)]

/-- The ffmpeg command line of `processAndSaveAudio`. -/
def ffmpegCommand (tempFile outputFile : String) : String :=
  "ffmpeg -f s16le -ar 11025 -ac 1 -i \"" ++ tempFile ++
    "\" -filter:a \"volume=10dB\" \"" ++ outputFile ++ "\""

/-- Function `processAndSaveAudio`, with the callback of `exec` inlined: the
whole cycle started by one call, in program order. -/
def processAndSaveAudio (env : CycleEnv) (audioBuffer : List Chunk) : List Effect :=
  Effect.callProcessAndSaveAudio audioBuffer ::
  if audioBuffer.length = 0 then
    [Effect.log "No audio data to process."]
  else
    let lookup := getLatestMissionId env.db
    match lookup.1 with
    | Except.error e => lookup.2 ++ [Effect.uncaught e]
    | Except.ok missionId =>
      lookup.2 ++
      (if !env.dirExists then [Effect.mkdir env.dirname] else []) ++
      [Effect.writeFile (tempFilePath env.dirname) audioBuffer.flatten,
        Effect.exec (ffmpegCommand (tempFilePath env.dirname) (outputFilePath env.dirname))] ++
      match env.execError with
      | some error => [Effect.log ("exec error: " ++ error)]
      | none => uploadFileToS3 env (outputFilePath env.dirname) missionId

/-- The `setInterval` callback: logs, calls `processAndSaveAudio(audioBuffer)`
and rebinds `audioBuffer` to a fresh empty array.  The array handed over is not
touched again by the message handler, which pushes on the new one.  The promise
returned by `processAndSaveAudio` is neither awaited nor given a `catch`: when
the cycle ends in `uncaught`, the state returned here is the last one the
process has (see `hostStep`). -/
def onTimer (s : ServerState) (env : CycleEnv) : ServerState × List Effect :=
  ({ s with audioBuffer := [] },
    Effect.log "Processing audio buffer" :: processAndSaveAudio env s.audioBuffer)

/-- Events delivered by the event loop.  A message event carries the
`readyState` of every socket as observed during that handler run; a timer
event carries the outcomes of the external calls of the cycle it starts. -/
inductive Event where
  | connection (ws : Conn)
  | message (ws : Conn) (readyState : Conn → Nat) (data : Chunk)
  | close (ws : Conn)
  | timer (env : CycleEnv)

/-- One event: dispatch to its handler. -/
def step (s : ServerState) : Event → ServerState × List Effect
  | Event.connection ws => onConnection s ws
  | Event.message _ readyState data => onMessage readyState s data
  | Event.close ws => onClose s ws
  | Event.timer env => onTimer s env

/-- A sequence of events, handled one after the other; the effects of all
handlers are concatenated in order. -/
def run (s : ServerState) : List Event → ServerState × List Effect
  | [] => (s, [])
  | e :: es =>
    let r := step s e
    let rest := run r.1 es
    (rest.1, r.2 ++ rest.2)

/-- The buffers handed to `processAndSaveAudio`, in call order. -/
def handedOver : List Effect → List (List Chunk)
  | [] => []
  | Effect.callProcessAndSaveAudio audioBuffer :: rest => audioBuffer :: handedOver rest
  | _ :: rest => handedOver rest

/-- The chunks of the message events, in arrival order. -/
def appended : List Event → List Chunk
  | [] => []
  | Event.message _ _ data :: rest => data :: appended rest
  | _ :: rest => appended rest

/-- The sockets that `ws.send` was called on, in call order. -/
def sentTo : List Effect → List Conn
  | [] => []
  | Effect.send ws _ :: rest => ws :: sentTo rest
  | _ :: rest => sentTo rest

/-- The arguments of the calls of `uploadFileToS3`, in call order. -/
def uploadCalls : List Effect → List (String × String)
  | [] => []
  | Effect.callUploadFileToS3 filePath missionId :: rest => (filePath, missionId) :: uploadCalls rest
  | _ :: rest => uploadCalls rest

/-- The keys of the objects passed to `s3.upload`, in call order. -/
def s3Keys : List Effect → List String
  | [] => []
  | Effect.s3Upload _ key _ _ :: rest => key :: s3Keys rest
  | _ :: rest => s3Keys rest

/-- The files passed to `fs.unlinkSync`, in call order. -/
def unlinked : List Effect → List String
  | [] => []
  | Effect.unlink file :: rest => file :: unlinked rest
  | _ :: rest => unlinked rest

/-- Whether a trace holds an exception or rejected promise that nothing in
`index.js` catches. -/
def hasUncaught : List Effect → Bool
  | [] => false
  | Effect.uncaught _ :: _ => true
  | _ :: rest => hasUncaught rest

/-- The Node.js process that runs `index.js`: the module variables, and whether
the process has exited. -/
structure Process where
  state : ServerState
  exited : Bool
  deriving DecidableEq, Repr

/-- The process at program start. -/
def Process.start : Process :=
  { state := ServerState.initial, exited := false }

/-- One event under the Node.js host (15 and later, default settings).  A
process that has exited handles nothing.  Otherwise the handler of `step` runs;
if its trace holds an `uncaught` (the rejected promise of
`processAndSaveAudio`, which the timer callback leaves without `catch`, or an
exception thrown inside the `exec` callback), the host ends the process.  As
with the trace of the cycle, the exit is listed at the timer event that starts
the cycle: the events after a timer event are those that arrive once its cycle
has ended. -/
def hostStep (p : Process) (e : Event) : Process × List Effect :=
  if p.exited then (p, [])
  else
    let r := step p.state e
    ({ state := r.1, exited := hasUncaught r.2 }, r.2)

/-- A sequence of events under the Node.js host. -/
def hostRun (p : Process) : List Event → Process × List Effect
  | [] => (p, [])
  | e :: es =>
    let r := hostStep p e
    let rest := hostRun r.1 es
    (rest.1, r.2 ++ rest.2)

/-- Example environment of one cycle; the database offers one mission row. -/
def sampleEnv (execError uploadErr : Option String) : CycleEnv :=
  { dirname := "/srv/audio"
    db := { connectOk := true, rows := some ["42"], endOk := true }
    dirExists := true
    execError := execError
    fileContent := some [73, 68, 51]
    formattedDate := "04-11-2026_10:20:30"
    uploadErr := uploadErr }

/-- Example environment of one cycle in which the missions table is empty. -/
def noMissionEnv : CycleEnv :=
  { sampleEnv none none with db := { connectOk := true, rows := some [], endOk := true } }

/-- Example `readyState`: socket 0 is CLOSED, every other socket is OPEN. -/
def firstClosed : Conn → Nat := fun ws => if ws = 0 then CLOSED else OPEN

/-- Example `readyState`: sockets 0 and 1 are CLOSED, every other socket is
OPEN. -/
def firstTwoClosed : Conn → Nat := fun ws => if ws < 2 then CLOSED else OPEN

/-- Example `readyState`: every socket is OPEN. -/
def allOpen : Conn → Nat := fun _ => OPEN

/-! ## The `forEach` loop -/

theorem sentTo_append (a b : List Effect) : sentTo (a ++ b) = sentTo a ++ sentTo b := by
  induction a with
  | nil => rfl
  | cons e a ih => cases e <;> simp [sentTo, ih]

theorem sentTo_map_send (data : Chunk) (visited : List Conn) :
    sentTo (visited.map fun ws => Effect.send ws data) = visited := by
  induction visited with
  | nil => rfl
  | cons ws visited ih => simp [sentTo, ih]

/-- Every run of the loop from index `i` appends to the trace one `send` of
`data` per visited open socket; the visited sockets are, in order, a
subsequence of the entries at index `i` and beyond. -/
theorem forEachLoop_trace (readyState : Conn → Nat) (data : Chunk) (remaining : Nat) :
    ∀ (i : Nat) (clients : List Conn) (out : List Effect),
      ∃ visited : List Conn,
        (forEachLoop readyState data remaining i clients out).2 =
            out ++ visited.map (fun ws => Effect.send ws data) ∧
          visited.Sublist (clients.drop i) ∧ ∀ ws ∈ visited, readyState ws = OPEN := by
  induction remaining with
  | zero => intro i clients out; exact ⟨[], by simp [forEachLoop]⟩
  | succ n ih =>
    intro i clients out
    unfold forEachLoop
    cases hget : clients.get? i with
    | none =>
      obtain ⟨visited, h1, h2, h3⟩ := ih (i + 1) clients out
      refine ⟨visited, h1, ?_, h3⟩
      exact h2.trans (by rw [← List.drop_drop 1 i clients]; exact List.drop_sublist _ _)
    | some ws =>
      have hi : i < clients.length := by
        rcases Nat.lt_or_ge i clients.length with h | h
        · exact h
        · rw [List.get?_eq_none.2 h] at hget; cases hget
      have hdrop : clients.drop i = ws :: clients.drop (i + 1) := by
        rw [List.drop_eq_getElem_cons hi]
        congr 1
        rw [List.get?_eq_getElem?, List.getElem?_eq_getElem hi] at hget
        exact Option.some.inj hget
      by_cases hopen : readyState ws = OPEN
      · obtain ⟨visited, h1, h2, h3⟩ := ih (i + 1) clients (out ++ [Effect.send ws data])
        refine ⟨ws :: visited, ?_, ?_, ?_⟩
        · simp only [hopen, if_true]
          rw [h1]; simp
        · rw [hdrop]; exact h2.cons₂ ws
        · intro w hw
          rcases List.mem_cons.1 hw with rfl | hw
          · exact hopen
          · exact h3 w hw
      · obtain ⟨visited, h1, h2, h3⟩ := ih (i + 1) (clients.eraseIdx i) out
        refine ⟨visited, ?_, ?_, h3⟩
        · simp only [hopen, if_false]
          exact h1
        · have he : (clients.eraseIdx i).drop (i + 1) = clients.drop (i + 2) := by
            rw [List.eraseIdx_eq_take_drop_succ, List.drop_append_eq_append_drop]
            have hlen : (clients.take i).length = i := by
              rw [List.length_take]; omega
            rw [List.drop_eq_nil_of_le (by omega), hlen]
            simp [List.drop_drop]
          rw [he] at h2
          refine h2.trans ?_
          rw [← List.drop_drop 2 i clients]
          exact List.drop_sublist _ _

theorem broadcast_trace (readyState : Conn → Nat) (clients : List Conn) (data : Chunk) :
    ∃ visited : List Conn,
      (broadcast readyState clients data).2 = visited.map (fun ws => Effect.send ws data) ∧
        visited.Sublist clients ∧ ∀ ws ∈ visited, readyState ws = OPEN := by
  obtain ⟨visited, h1, h2, h3⟩ := forEachLoop_trace readyState data clients.length 0 clients []
  exact ⟨visited, by simpa [broadcast] using h1, by simpa using h2, h3⟩

theorem handedOver_append (a b : List Effect) :
    handedOver (a ++ b) = handedOver a ++ handedOver b := by
  induction a with
  | nil => rfl
  | cons e a ih => cases e <;> simp [handedOver, ih]

theorem handedOver_map_send (data : Chunk) (visited : List Conn) :
    handedOver (visited.map fun ws => Effect.send ws data) = [] := by
  induction visited with
  | nil => rfl
  | cons ws visited ih => simp [handedOver, ih]

theorem handedOver_getLatestMissionId (db : DbEnv) :
    handedOver (getLatestMissionId db).2 = [] := by
  unfold getLatestMissionId
  rcases db with ⟨c, rows, e⟩
  cases c <;> cases e <;> rcases rows with _ | _ | _ <;> simp [handedOver]

theorem handedOver_uploadFileToS3 (env : CycleEnv) (filePath missionId : String) :
    handedOver (uploadFileToS3 env filePath missionId) = [] := by
  unfold uploadFileToS3
  cases env.fileContent <;> cases env.uploadErr <;> simp [handedOver]

theorem handedOver_processAndSaveAudio (env : CycleEnv) (audioBuffer : List Chunk) :
    handedOver (processAndSaveAudio env audioBuffer) = [audioBuffer] := by
  unfold processAndSaveAudio
  simp only [handedOver, List.cons.injEq, true_and]
  split
  · rfl
  · split
    · simp [handedOver_append, handedOver_getLatestMissionId, handedOver]
    · cases env.dirExists <;> cases env.execError <;>
        simp [handedOver_append, handedOver_getLatestMissionId, handedOver_uploadFileToS3,
          handedOver]

theorem handedOver_onTimer (s : ServerState) (env : CycleEnv) :
    handedOver (onTimer s env).2 = [s.audioBuffer] := by
  show handedOver (processAndSaveAudio env s.audioBuffer) = _
  exact handedOver_processAndSaveAudio env s.audioBuffer

theorem handedOver_step (s : ServerState) (e : Event) :
    (handedOver (step s e).2).flatten ++ (step s e).1.audioBuffer =
      s.audioBuffer ++ appended [e] := by
  cases e with
  | connection ws => simp [step, onConnection, handedOver, appended]
  | message ws readyState data =>
    obtain ⟨visited, h1, _, _⟩ := broadcast_trace readyState s.connectedClients data
    simp [step, onMessage, h1, handedOver_map_send, appended]
  | close ws => simp [step, onClose, handedOver, appended]
  | timer env =>
    simp only [step, handedOver_onTimer]
    simp [onTimer, appended]

theorem appended_cons (e : Event) (es : List Event) :
    appended (e :: es) = appended [e] ++ appended es := by
  cases e <;> simp [appended]

theorem run_append (s : ServerState) (es fs : List Event) :
    run s (es ++ fs) =
      ((run (run s es).1 fs).1, (run s es).2 ++ (run (run s es).1 fs).2) := by
  induction es generalizing s with
  | nil => simp [run]
  | cons e es ih => simp [run, ih]

theorem run_partition (events : List Event) :
    ∀ s : ServerState,
      (handedOver (run s events).2).flatten ++ (run s events).1.audioBuffer =
        s.audioBuffer ++ appended events := by
  induction events with
  | nil => intro s; simp [run, handedOver, appended]
  | cons e es ih =>
    intro s
    have hstep := handedOver_step s e
    have hrest := ih (step s e).1
    rw [appended_cons]
    simp only [run, handedOver_append, List.flatten_append, List.append_assoc]
    rw [hrest, ← List.append_assoc, hstep, List.append_assoc]

theorem uploadCalls_append (a b : List Effect) :
    uploadCalls (a ++ b) = uploadCalls a ++ uploadCalls b := by
  induction a with
  | nil => rfl
  | cons e a ih => cases e <;> simp [uploadCalls, ih]

theorem s3Keys_append (a b : List Effect) : s3Keys (a ++ b) = s3Keys a ++ s3Keys b := by
  induction a with
  | nil => rfl
  | cons e a ih => cases e <;> simp [s3Keys, ih]

theorem uploadCalls_getLatestMissionId (db : DbEnv) :
    uploadCalls (getLatestMissionId db).2 = [] := by
  unfold getLatestMissionId
  rcases db with ⟨c, rows, e⟩
  cases c <;> cases e <;> rcases rows with _ | _ | _ <;> simp [uploadCalls]

theorem s3Keys_getLatestMissionId (db : DbEnv) : s3Keys (getLatestMissionId db).2 = [] := by
  unfold getLatestMissionId
  rcases db with ⟨c, rows, e⟩
  cases c <;> cases e <;> rcases rows with _ | _ | _ <;> simp [s3Keys]

/-- The lookup performs database calls and logging only. -/
theorem getLatestMissionId_trace (db : DbEnv) :
    ∀ e ∈ (getLatestMissionId db).2,
      e = Effect.dbConnect ∨ (∃ sql, e = Effect.dbExecute sql) ∨ e = Effect.dbEnd ∨
        ∃ msg, e = Effect.log msg := by
  unfold getLatestMissionId
  rcases db with ⟨c, rows, e⟩
  cases c <;> cases e <;> rcases rows with _ | _ | _ <;> simp

theorem uploadCalls_uploadFileToS3 (env : CycleEnv) (filePath missionId : String) :
    uploadCalls (uploadFileToS3 env filePath missionId) = [(filePath, missionId)] := by
  unfold uploadFileToS3
  cases env.fileContent <;> cases env.uploadErr <;> simp [uploadCalls]

theorem s3Keys_uploadFileToS3 (env : CycleEnv) (filePath missionId : String)
    (body : List Nat) (hread : env.fileContent = some body) :
    s3Keys (uploadFileToS3 env filePath missionId) = [s3Key missionId env.formattedDate] := by
  unfold uploadFileToS3
  simp only [hread]
  cases env.uploadErr <;> simp [s3Keys]

theorem s3Key_data (missionId formattedDate : String) :
    (s3Key missionId formattedDate).data =
      missionId.data ++ ("/audio_".data ++ (formattedDate.data ++ ".mp3".data)) := by
  simp [s3Key, String.data_append]

theorem s3Key_inj (m1 m2 t1 t2 : String) (h1 : t1.length = 19) (h2 : t2.length = 19)
    (h : s3Key m1 t1 = s3Key m2 t2) : m1 = m2 ∧ t1 = t2 := by
  have hd := congrArg String.data h
  rw [s3Key_data, s3Key_data] at hd
  have hl1 : t1.data.length = 19 := h1
  have hl2 : t2.data.length = 19 := h2
  obtain ⟨hm, hrest⟩ := List.append_inj' hd (by simp [hl1, hl2])
  have ht : t1.data = t2.data :=
    List.append_cancel_right (List.append_cancel_left hrest)
  exact ⟨String.ext hm, String.ext ht⟩

theorem hasUncaught_append (a b : List Effect) :
    hasUncaught (a ++ b) = (hasUncaught a || hasUncaught b) := by
  induction a with
  | nil => rfl
  | cons e a ih => cases e <;> simp [hasUncaught, ih]

/-- A cycle on a non-empty buffer whose lookup fails performs the database
calls and logging of the lookup and then ends in `uncaught`: no file is
written, no transcoder started, `uploadFileToS3` not called, nothing passed to
`s3.upload`. -/
theorem lookup_failure_trace (s : ServerState) (env : CycleEnv) (error : String)
    (hne : s.audioBuffer ≠ [])
    (hfail : (getLatestMissionId env.db).1 = Except.error error) :
    hasUncaught (onTimer s env).2 = true ∧
      ∀ e ∈ (onTimer s env).2,
        (∀ file content, e ≠ Effect.writeFile file content) ∧ (∀ command, e ≠ Effect.exec command) ∧
          (∀ filePath missionId, e ≠ Effect.callUploadFileToS3 filePath missionId) ∧
          ∀ bucket key body contentType, e ≠ Effect.s3Upload bucket key body contentType := by
  have hlen : ¬ s.audioBuffer.length = 0 := by
    intro h; exact hne (List.length_eq_zero.1 h)
  constructor
  · simp [onTimer, processAndSaveAudio, hlen, hfail, hasUncaught, hasUncaught_append]
  · intro e he
    simp only [onTimer, processAndSaveAudio, hlen, if_false, hfail, List.mem_cons,
      List.mem_append, List.mem_singleton, List.not_mem_nil, or_false] at he
    rcases he with rfl | rfl | he | rfl
    · simp
    · simp
    · rcases getLatestMissionId_trace env.db e he with rfl | ⟨sql, rfl⟩ | rfl | ⟨msg, rfl⟩ <;> simp
    · simp

/-- Under the host, the timer event of such a cycle ends the process. -/
theorem hostStep_lookup_failure (s : ServerState) (env : CycleEnv) (error : String)
    (hne : s.audioBuffer ≠ [])
    (hfail : (getLatestMissionId env.db).1 = Except.error error) :
    (hostStep { state := s, exited := false } (Event.timer env)).1 =
      { state := { connectedClients := s.connectedClients, audioBuffer := [] },
        exited := true } := by
  have h := (lookup_failure_trace s env error hne hfail).1
  simp only [hostStep, step, Bool.false_eq_true, if_false, h]
  rfl

/-- A process that has exited handles no event: state and trace stay as they
are. -/
theorem hostRun_exited (s : ServerState) (events : List Event) :
    hostRun { state := s, exited := true } events = ({ state := s, exited := true }, []) := by
  induction events with
  | nil => rfl
  | cons e es ih => simp [hostRun, hostStep, ih]

/-! ## Claims -/

/-- C1 (evaluation at the failing input): sockets 0 and 1 connect, socket 0
closes, socket 1 sends the chunk `[1, 2]`.  The message handler runs on
`connectedClients = [0, 1]`, removes socket 0 at index 0, finds index 1 no
longer present, and sends nothing: the open socket 1 does not get the chunk. -/
theorem broadcast_skips_open_socket :
    run ServerState.initial
        [Event.connection 0, Event.connection 1, Event.close 0] =
        ({ connectedClients := [0, 1], audioBuffer := [] },
          [Effect.log "Connected", Effect.log "Connected", Effect.log "Connection closed"]) ∧
      1 ∈ [0, 1] ∧ firstClosed 1 = OPEN ∧
      onMessage firstClosed { connectedClients := [0, 1], audioBuffer := [] } [1, 2] =
        ({ connectedClients := [1], audioBuffer := [[1, 2]] }, []) ∧
      Effect.send 1 [1, 2] ∉
        (onMessage firstClosed { connectedClients := [0, 1], audioBuffer := [] } [1, 2]).2 := by
  decide

/-- C2: from any state with an empty `audioBuffer` and for every sequence of
events, the buffers handed to `processAndSaveAudio`, concatenated in call
order, followed by the current `audioBuffer`, are the chunks of the message
events in arrival order.  Moreover the buffer handed over by a timer event is
the `audioBuffer` reached by the events before it, whatever events follow. -/
theorem window_partition (clients : List Conn) (events : List Event) :
    (handedOver (run { connectedClients := clients, audioBuffer := [] } events).2).flatten ++
          (run { connectedClients := clients, audioBuffer := [] } events).1.audioBuffer =
        appended events ∧
      ∀ (before after : List Event) (env : CycleEnv), events = before ++ Event.timer env :: after →
        ∃ later : List (List Chunk),
          handedOver (run { connectedClients := clients, audioBuffer := [] } events).2 =
            handedOver (run { connectedClients := clients, audioBuffer := [] } before).2 ++
              (run { connectedClients := clients, audioBuffer := [] } before).1.audioBuffer ::
                later ∧
          later.flatten ++
              (run { connectedClients := clients, audioBuffer := [] } events).1.audioBuffer =
            appended after := by
  refine ⟨by simpa using run_partition events ⟨clients, []⟩, ?_⟩
  rintro before after env rfl
  refine ⟨handedOver (run (onTimer (run ⟨clients, []⟩ before).1 env).1 after).2, ?_, ?_⟩
  · rw [run_append]
    simp only [run, step, handedOver_append, handedOver_onTimer]
    simp
  · rw [run_append]
    simpa [run, step, onTimer] using
      run_partition after (onTimer (run ⟨clients, []⟩ before).1 env).1

/-- C3 (counterexample): with `connectedClients = [7]`, after the close event
of socket 7 is handled the socket is still in `connectedClients`. -/
theorem onClose_keeps_socket :
    7 ∈ (ServerState.mk [7] []).connectedClients ∧
      7 ∈ (step (ServerState.mk [7] []) (Event.close 7)).1.connectedClients := by
  decide

/-- C3 (amended): the close handler only logs; `connectedClients` and
`audioBuffer` are unchanged, so a tracked socket is still tracked after its
close event is handled. -/
theorem onClose_state_unchanged (s : ServerState) (c : Conn) (h : c ∈ s.connectedClients) :
    c ∈ (step s (Event.close c)).1.connectedClients ∧
      step s (Event.close c) = (s, [Effect.log "Connection closed"]) := by
  exact ⟨h, rfl⟩

/-- Instance of C3 (amended) for `connectedClients = [7, 8]` and socket 7. -/
theorem onClose_state_unchanged_witness :
    7 ∈ (ServerState.mk [7, 8] []).connectedClients ∧
      (7 ∈ (step (ServerState.mk [7, 8] []) (Event.close 7)).1.connectedClients ∧
        step (ServerState.mk [7, 8] []) (Event.close 7) =
          (ServerState.mk [7, 8] [], [Effect.log "Connection closed"])) :=
  ⟨by decide, onClose_state_unchanged (ServerState.mk [7, 8] []) 7 (by decide)⟩

/-- C4 (evaluation at the failing input): sockets 0, 1 and 2 connect, sockets
0 and 1 close, socket 2 sends the chunk `[1, 2]`.  The message handler runs on
`connectedClients = [0, 1, 2]`, removes socket 0 at index 0, visits socket 2 at
index 1, finds index 2 no longer present, and leaves the non-open socket 1 in
`connectedClients`. -/
theorem broadcast_keeps_closed_socket :
    run ServerState.initial
        [Event.connection 0, Event.connection 1, Event.connection 2, Event.close 0,
          Event.close 1] =
        ({ connectedClients := [0, 1, 2], audioBuffer := [] },
          [Effect.log "Connected", Effect.log "Connected", Effect.log "Connected",
            Effect.log "Connection closed", Effect.log "Connection closed"]) ∧
      firstTwoClosed 1 ≠ OPEN ∧
      onMessage firstTwoClosed { connectedClients := [0, 1, 2], audioBuffer := [] } [1, 2] =
        ({ connectedClients := [1, 2], audioBuffer := [[1, 2]] }, [Effect.send 2 [1, 2]]) ∧
      1 ∈ (onMessage firstTwoClosed { connectedClients := [0, 1, 2], audioBuffer := [] }
        [1, 2]).1.connectedClients := by
  decide

/-- C5: when `connectedClients` has no duplicate entry, one run of the message
handler calls `ws.send` at most once per socket, only on sockets whose
`readyState` is OPEN, and always with the received chunk as payload. -/
theorem broadcast_once_open_verbatim (readyState : Conn → Nat) (s : ServerState) (data : Chunk)
    (hnodup : s.connectedClients.Nodup) :
    (∀ ws, (sentTo (onMessage readyState s data).2).count ws ≤ 1) ∧
      ∀ ws payload, Effect.send ws payload ∈ (onMessage readyState s data).2 →
        readyState ws = OPEN ∧ payload = data := by
  obtain ⟨visited, h1, h2, h3⟩ := broadcast_trace readyState s.connectedClients data
  simp only [onMessage, h1, sentTo_map_send]
  constructor
  · intro ws
    exact List.nodup_iff_count_le_one.1 (h2.nodup hnodup) ws
  · intro ws payload hmem
    obtain ⟨w, hw, heq⟩ := List.mem_map.1 hmem
    cases heq
    exact ⟨h3 _ hw, rfl⟩

/-- Instance of C5 for `connectedClients = [0, 1, 2]` with socket 0 CLOSED. -/
theorem broadcast_once_open_verbatim_witness :
    (ServerState.mk [0, 1, 2] []).connectedClients.Nodup ∧
      ((∀ ws, (sentTo (onMessage firstClosed (ServerState.mk [0, 1, 2] []) [7]).2).count ws ≤ 1) ∧
        ∀ ws payload,
          Effect.send ws payload ∈ (onMessage firstClosed (ServerState.mk [0, 1, 2] []) [7]).2 →
            firstClosed ws = OPEN ∧ payload = [7]) :=
  ⟨by decide, broadcast_once_open_verbatim firstClosed (ServerState.mk [0, 1, 2] []) [7] (by decide)⟩

/-- C6: a timer that fires on an empty `audioBuffer` logs twice and does
nothing else: `processAndSaveAudio` returns at its first test, before any
database, file, transcoder or S3 call, and `audioBuffer` is empty afterwards. -/
theorem empty_drain_only_logs (clients : List Conn) (env : CycleEnv) :
    processAndSaveAudio env [] =
        [Effect.callProcessAndSaveAudio [], Effect.log "No audio data to process."] ∧
      onTimer { connectedClients := clients, audioBuffer := [] } env =
        ({ connectedClients := clients, audioBuffer := [] },
          [Effect.log "Processing audio buffer", Effect.callProcessAndSaveAudio [],
            Effect.log "No audio data to process."]) := by
  exact ⟨rfl, rfl⟩

/-- C7: in a cycle with a non-empty buffer whose lookup returned `missionId`,
the transcoder is invoked; if it reports an error, `uploadFileToS3` is not
called and nothing is passed to `s3.upload`; if it reports success,
`uploadFileToS3` is called exactly once, with the output file path and
`missionId`. -/
theorem transcoder_outcome_gates_upload (env : CycleEnv) (audioBuffer : List Chunk)
    (missionId : String) (hne : audioBuffer ≠ [])
    (hlookup : (getLatestMissionId env.db).1 = Except.ok missionId) :
    Effect.exec (ffmpegCommand (tempFilePath env.dirname) (outputFilePath env.dirname)) ∈
        processAndSaveAudio env audioBuffer ∧
      ((∃ error, env.execError = some error) →
        uploadCalls (processAndSaveAudio env audioBuffer) = [] ∧
          s3Keys (processAndSaveAudio env audioBuffer) = []) ∧
      (env.execError = none →
        uploadCalls (processAndSaveAudio env audioBuffer) =
          [(outputFilePath env.dirname, missionId)]) := by
  have hlen : ¬ audioBuffer.length = 0 := by
    intro h; exact hne (List.length_eq_zero.1 h)
  unfold processAndSaveAudio
  simp only [hlen, if_false, hlookup]
  refine ⟨?_, ?_, ?_⟩
  · simp
  · rintro ⟨error, herr⟩
    cases env.dirExists <;>
      simp [herr, uploadCalls, s3Keys, uploadCalls_append, s3Keys_append,
        uploadCalls_getLatestMissionId, s3Keys_getLatestMissionId]
  · intro hok
    cases env.dirExists <;>
      simp [hok, uploadCalls, uploadCalls_append, uploadCalls_getLatestMissionId,
        uploadCalls_uploadFileToS3]

/-- Instances of C7: one cycle whose transcoder fails, one whose transcoder
succeeds. -/
theorem transcoder_outcome_gates_upload_witness :
    ([[1, 2]] : List Chunk) ≠ [] ∧
      (getLatestMissionId (sampleEnv (some "exit 1") none).db).1 = Except.ok "42" ∧
      (getLatestMissionId (sampleEnv none none).db).1 = Except.ok "42" ∧
      (uploadCalls (processAndSaveAudio (sampleEnv (some "exit 1") none) [[1, 2]]) = [] ∧
        s3Keys (processAndSaveAudio (sampleEnv (some "exit 1") none) [[1, 2]]) = []) ∧
      uploadCalls (processAndSaveAudio (sampleEnv none none) [[1, 2]]) =
        [(outputFilePath (sampleEnv none none).dirname, "42")] :=
  ⟨by decide, rfl, rfl,
    (transcoder_outcome_gates_upload (sampleEnv (some "exit 1") none) [[1, 2]] "42" (by decide)
      rfl).2.1 ⟨"exit 1", rfl⟩,
    (transcoder_outcome_gates_upload (sampleEnv none none) [[1, 2]] "42" (by decide) rfl).2.2 rfl⟩

/-- C8: in a call of `uploadFileToS3` whose file read succeeds there is exactly
one `s3.upload`; if it reports success, `fs.unlinkSync` is called on the
encoded file and on `tempAudio.raw`; if it reports an error, no file is
unlinked. -/
theorem upload_outcome_gates_cleanup (env : CycleEnv) (filePath missionId : String)
    (body : List Nat) (hread : env.fileContent = some body) :
    s3Keys (uploadFileToS3 env filePath missionId) = [s3Key missionId env.formattedDate] ∧
      (env.uploadErr = none →
        unlinked (uploadFileToS3 env filePath missionId) =
          [filePath, tempFilePath env.dirname]) ∧
      ((∃ err, env.uploadErr = some err) →
        unlinked (uploadFileToS3 env filePath missionId) = []) := by
  unfold uploadFileToS3
  simp only [hread]
  refine ⟨?_, ?_, ?_⟩
  · cases env.uploadErr <;> simp [s3Keys]
  · intro hok
    simp [hok, unlinked]
  · rintro ⟨err, herr⟩
    simp [herr, unlinked]

/-- Instances of C8: one upload that succeeds, one that is refused. -/
theorem upload_outcome_gates_cleanup_witness :
    (sampleEnv none none).fileContent = some [73, 68, 51] ∧
      (sampleEnv none (some "AccessDenied")).fileContent = some [73, 68, 51] ∧
      unlinked (uploadFileToS3 (sampleEnv none none) "/srv/audio/output.mp3" "42") =
        ["/srv/audio/output.mp3", tempFilePath (sampleEnv none none).dirname] ∧
      unlinked (uploadFileToS3 (sampleEnv none (some "AccessDenied")) "/srv/audio/output.mp3"
        "42") = [] :=
  ⟨rfl, rfl,
    (upload_outcome_gates_cleanup (sampleEnv none none) "/srv/audio/output.mp3" "42"
      [73, 68, 51] rfl).2.1 rfl,
    (upload_outcome_gates_cleanup (sampleEnv none (some "AccessDenied")) "/srv/audio/output.mp3"
      "42" [73, 68, 51] rfl).2.2 ⟨"AccessDenied", rfl⟩⟩

/-- C9 (evaluation at the failing input): sockets 0 and 1 connect, socket 0
sends `[1, 2]`, the timer fires while the missions table is empty, then socket
0 sends `[3, 4]`.  The cycle logs the failure and ends in the rejection of
`processAndSaveAudio`, before any file is written, any transcoder started or
anything uploaded; nothing catches the rejection, the host ends the process,
and `[3, 4]` is neither appended nor sent to anyone.  With a mission row in the
table the same events append `[3, 4]` and send it to both sockets. -/
theorem lookup_failure_ends_process :
    onTimer { connectedClients := [0, 1], audioBuffer := [[1, 2]] } noMissionEnv =
        ({ connectedClients := [0, 1], audioBuffer := [] },
          [Effect.log "Processing audio buffer", Effect.callProcessAndSaveAudio [[1, 2]],
            Effect.dbConnect,
            Effect.dbExecute "SELECT mission_id FROM missions ORDER BY start_date DESC LIMIT 1",
            Effect.log "Failed to retrieve mission:", Effect.dbEnd,
            Effect.uncaught "TypeError: rows[0] is undefined"]) ∧
      (hostRun Process.start
          [Event.connection 0, Event.connection 1, Event.message 0 allOpen [1, 2],
            Event.timer noMissionEnv, Event.message 0 allOpen [3, 4]]).1 =
        { state := { connectedClients := [0, 1], audioBuffer := [] }, exited := true } ∧
      (∀ ws, Effect.send ws [3, 4] ∉
        (hostRun Process.start
          [Event.connection 0, Event.connection 1, Event.message 0 allOpen [1, 2],
            Event.timer noMissionEnv, Event.message 0 allOpen [3, 4]]).2) ∧
      (hostRun Process.start
          [Event.connection 0, Event.connection 1, Event.message 0 allOpen [1, 2],
            Event.timer (sampleEnv none none), Event.message 0 allOpen [3, 4]]).1 =
        { state := { connectedClients := [0, 1], audioBuffer := [[3, 4]] }, exited := false } ∧
      Effect.send 0 [3, 4] ∈
        (hostRun Process.start
          [Event.connection 0, Event.connection 1, Event.message 0 allOpen [1, 2],
            Event.timer (sampleEnv none none), Event.message 0 allOpen [3, 4]]).2 ∧
      Effect.send 1 [3, 4] ∈
        (hostRun Process.start
          [Event.connection 0, Event.connection 1, Event.message 0 allOpen [1, 2],
            Event.timer (sampleEnv none none), Event.message 0 allOpen [3, 4]]).2 := by
  refine ⟨by decide, by decide, ?_, by decide, by decide, by decide⟩
  intro ws
  have htrace :
      (hostRun Process.start
          [Event.connection 0, Event.connection 1, Event.message 0 allOpen [1, 2],
            Event.timer noMissionEnv, Event.message 0 allOpen [3, 4]]).2 =
        [Effect.log "Connected", Effect.log "Connected", Effect.send 0 [1, 2],
          Effect.send 1 [1, 2], Effect.log "Processing audio buffer",
          Effect.callProcessAndSaveAudio [[1, 2]], Effect.dbConnect,
          Effect.dbExecute "SELECT mission_id FROM missions ORDER BY start_date DESC LIMIT 1",
          Effect.log "Failed to retrieve mission:", Effect.dbEnd,
          Effect.uncaught "TypeError: rows[0] is undefined"] := by
    decide
  rw [htrace]
  simp

/-- C10: the key passed to `s3.upload` is the mission identifier followed by
"/audio_", the formatted date and ".mp3"; two uploads whose formatted dates
have 19 characters get the same key only if their mission identifiers are
equal and their formatted dates are equal. -/
theorem s3Key_format_unique (env1 env2 : CycleEnv) (file1 file2 m1 m2 : String)
    (body1 body2 : List Nat) (hread1 : env1.fileContent = some body1)
    (hread2 : env2.fileContent = some body2) (hlen1 : env1.formattedDate.length = 19)
    (hlen2 : env2.formattedDate.length = 19) :
    s3Keys (uploadFileToS3 env1 file1 m1) = [m1 ++ "/audio_" ++ env1.formattedDate ++ ".mp3"] ∧
      (s3Keys (uploadFileToS3 env1 file1 m1) = s3Keys (uploadFileToS3 env2 file2 m2) →
        m1 = m2 ∧ env1.formattedDate = env2.formattedDate) := by
  rw [(s3Keys_uploadFileToS3 env1 file1 m1 body1 hread1),
    (s3Keys_uploadFileToS3 env2 file2 m2 body2 hread2)]
  refine ⟨rfl, fun h => ?_⟩
  exact s3Key_inj m1 m2 _ _ hlen1 hlen2 (List.singleton_inj.1 h)

/-- Instance of C10 for mission "42" at 04-11-2026_10:20:30. -/
theorem s3Key_format_unique_witness :
    (sampleEnv none none).fileContent = some [73, 68, 51] ∧
      (sampleEnv none none).formattedDate.length = 19 ∧
      s3Keys (uploadFileToS3 (sampleEnv none none) "/srv/audio/output.mp3" "42") =
        ["42" ++ "/audio_" ++ (sampleEnv none none).formattedDate ++ ".mp3"] :=
  ⟨rfl, by decide,
    (s3Key_format_unique (sampleEnv none none) (sampleEnv none none) "/srv/audio/output.mp3"
      "/srv/audio/output.mp3" "42" "42" [73, 68, 51] [73, 68, 51] rfl rfl (by decide)
      (by decide)).1⟩

end AudioServer
